import Mathlib

/-!
Verification of the prompt-to-motion-graphics SaaS core against its source.

Strings are modelled as `List Char`. The JavaScript string primitives used by
the source (`includes`, `split(...).length`, `indexOf`, `substring`,
`replace` with a string pattern — including the ECMAScript `GetSubstitution`
dollar-patterns in the replacement string) are embedded explicitly so that
`applyEdits` can be translated line by line.
-/

namespace MotionSaaS

/-- The character `$` (starts an ECMAScript replacement pattern). -/
def dollarChar : Char := '$'

/-- The character `&` (the `$&` pattern inserts the matched substring). -/
def ampChar : Char := '&'

/-- The backquote character, code point 96 (the dollar-backquote pattern
inserts the portion of the string preceding the match). -/
def backquoteChar : Char := Char.ofNat 96

/-- The single-quote character, code point 39 (the dollar-quote pattern
inserts the portion of the string following the match). -/
def singleQuoteChar : Char := Char.ofNat 39

/-- The newline character, used by `getLineNumber` (source counts
`split("\n").length`). -/
def newlineChar : Char := Char.ofNat 10

/-- Index of the first occurrence of `old` in `code` (JS `String.indexOf`,
returning `none` instead of -1). `findSub [] code = some 0`, as in JS. -/
def findSub (old : List Char) : List Char → Option Nat
  | [] => if List.isPrefixOf old [] then some 0 else none
  | c :: rest =>
    if List.isPrefixOf old (c :: rest) then some 0
    else (findSub old rest).map (· + 1)

/-- JS `code.includes(searchString)`. -/
def jsIncludes (code searchString : List Char) : Bool :=
  (findSub searchString code).isSome

/-- Number of leftmost non-overlapping occurrences of `old` (nonempty) in the
list, with `skip` characters still to be consumed from a previous match.
Mirrors how JS `String.split` scans for separator occurrences. -/
def countNonOverlapAux (old : List Char) : List Char → Nat → Nat
  | [], _ => 0
  | c :: rest, 0 =>
    if List.isPrefixOf old (c :: rest) then
      1 + countNonOverlapAux old rest (old.length - 1)
    else countNonOverlapAux old rest 0
  | _ :: rest, skip + 1 => countNonOverlapAux old rest skip

/-- Leftmost non-overlapping occurrence count, as found by JS `split`. -/
def countNonOverlap (old code : List Char) : Nat :=
  countNonOverlapAux old code 0

/-- Length of the array `code.split(old)` in JS: splitting by the empty
string yields one element per character (so `[]` for the empty string);
splitting by a nonempty separator yields one more element than the number of
leftmost non-overlapping separator occurrences. -/
def jsSplitLen (code old : List Char) : Nat :=
  if old = [] then code.length else countNonOverlap old code + 1

/-- The `matches` quantity computed by the source:
`result.split(old_string).length - 1` (as a JS number, so it can be -1). -/
def jsMatchCount (code old : List Char) : Int :=
  (jsSplitLen code old : Int) - 1

/-- ECMAScript `GetSubstitution` for a plain-string pattern: in the
replacement string, dollar-dollar emits a dollar, dollar-ampersand emits the
matched text, dollar-backquote emits the text before the match,
dollar-quote emits the text after the match; any other use of the dollar
character is literal. With a string pattern there are no capture groups, so
digit patterns are literal as well. -/
def getSubstitution (matched pre post : List Char) : List Char → List Char
  | [] => []
  | [c] => [c]
  | c :: d :: rest =>
    if c = dollarChar then
      if d = dollarChar then dollarChar :: getSubstitution matched pre post rest
      else if d = ampChar then matched ++ getSubstitution matched pre post rest
      else if d = backquoteChar then pre ++ getSubstitution matched pre post rest
      else if d = singleQuoteChar then post ++ getSubstitution matched pre post rest
      else c :: getSubstitution matched pre post (d :: rest)
    else c :: getSubstitution matched pre post (d :: rest)

/-- JS `code.replace(searchValue, replaceValue)` with a string pattern:
replaces the first occurrence only, applying `GetSubstitution` to the
replacement string. -/
def jsReplace (code searchValue replaceValue : List Char) : List Char :=
  match findSub searchValue code with
  | none => code
  | some i =>
    code.take i
      ++ getSubstitution searchValue (code.take i) (code.drop (i + searchValue.length))
        replaceValue
      ++ code.drop (i + searchValue.length)

/-- Number of positions of `code` at which `old` occurs as a substring
(all occurrences, including overlapping ones). This is the plain
mathematical notion of occurrence used to read the spec sentence
"`oldString` appears exactly once". -/
def countPos (old : List Char) : List Char → Nat
  | [] => if List.isPrefixOf old [] then 1 else 0
  | c :: rest =>
    (if List.isPrefixOf old (c :: rest) then 1 else 0) + countPos old rest

/-- `EditOperation` from src/unnamed/part_002 (generation route):
`{description, old_string, new_string, lineNumber?}`. -/
structure EditOperation where
  description : List Char
  old_string : List Char
  new_string : List Char
  lineNumber : Option Int := none
deriving DecidableEq, Repr

/-- `getLineNumber(code, searchString)` from src/unnamed/part_002
(lines 526-530): -1 when the string does not occur, otherwise
`code.substring(0, index).split("\n").length`, which is one plus the
number of newline characters strictly before the first occurrence. -/
def getLineNumber (code searchString : List Char) : Int :=
  match findSub searchString code with
  | none => -1
  | some i => (((code.take i).filter (fun c => c = newlineChar)).length : Int) + 1

/-- The error value built by `applyEdits` on failure. The source renders it
as a message string (and also returns the failing edit in `failedEdit`);
this embedding keeps the data the message carries — the failure kind, the
1-based edit index and, for ambiguity, the match count — see
`renderApplyError` for the exact source strings. -/
inductive ApplyError where
  | notFound (editIndex : Nat) (failedEdit : EditOperation)
  | ambiguous (editIndex : Nat) (matchCount : Int) (failedEdit : EditOperation)
deriving DecidableEq, Repr

/-- The exact `error` strings the source produces (template literals at
src/unnamed/part_002 lines 555 and 566). -/
def renderApplyError : ApplyError → List Char
  | ApplyError.notFound i _ =>
    "Edit ".toList ++ Nat.toDigits 10 i
      ++ " failed: Could not find the specified text".toList
  | ApplyError.ambiguous i m _ =>
    "Edit ".toList ++ Nat.toDigits 10 i ++ " failed: Found ".toList
      ++ Nat.toDigits 10 m.toNat ++ " matches. The edit target is ambiguous.".toList

/-- Return shape of `applyEdits` (src/unnamed/part_002 lines 536-541):
`{success, result, error?, enrichedEdits?, failedEdit?}`. -/
structure ApplyResult where
  success : Bool
  result : List Char
  error : Option ApplyError := none
  enrichedEdits : Option (List EditOperation) := none
  failedEdit : Option EditOperation := none
deriving DecidableEq, Repr

/-- The loop body of `applyEdits` (src/unnamed/part_002 lines 543-587):
`buf` is the mutable `result`, `i` the 0-based loop counter, `acc` the
`enrichedEdits` accumulated so far. Each edit is checked against the
current buffer (`includes`, then `split`-based match count), then applied
with JS `replace` (first occurrence only); on failure the ORIGINAL input
`origCode` is returned as `result`. -/
def applyEditsGo (origCode buf : List Char) (i : Nat) (acc : List EditOperation) :
    List EditOperation → ApplyResult
  | [] => { success := true, result := buf, enrichedEdits := some acc }
  | edit :: rest =>
    if jsIncludes buf edit.old_string = false then
      { success := false, result := origCode,
        error := some (ApplyError.notFound (i + 1) edit), failedEdit := some edit }
    else if 1 < jsMatchCount buf edit.old_string then
      { success := false, result := origCode,
        error := some (ApplyError.ambiguous (i + 1) (jsMatchCount buf edit.old_string) edit),
        failedEdit := some edit }
    else
      applyEditsGo origCode (jsReplace buf edit.old_string edit.new_string) (i + 1)
        (acc ++ [{ edit with lineNumber := some (getLineNumber buf edit.old_string) }]) rest

/-- `applyEdits(code, edits)` from src/unnamed/part_002 lines 533-587. -/
def applyEdits (code : List Char) (edits : List EditOperation) : ApplyResult :=
  applyEditsGo code code 0 [] edits

/-- One PatchEngine step applied optimistically: JS
`result.replace(old_string, new_string)`. -/
def applyStep (buf : List Char) (e : EditOperation) : List Char :=
  jsReplace buf e.old_string e.new_string

/-- Buffer obtained after optimistically applying a list of edits in order. -/
def bufAfter (buf : List Char) : List EditOperation → List Char
  | [] => buf
  | e :: rest => bufAfter (applyStep buf e) rest

/-- The checks `applyEdits` performs before applying one edit succeed:
the old string occurs in the buffer and the JS match count is at most 1. -/
def editOkB (buf : List Char) (e : EditOperation) : Bool :=
  jsIncludes buf e.old_string && decide (jsMatchCount buf e.old_string ≤ 1)

/-- All edits of the list pass their checks when applied in order. -/
def allOk (buf : List Char) : List EditOperation → Bool
  | [] => true
  | e :: rest => editOkB buf e && allOk (applyStep buf e) rest

/-- The `type` discriminator of `FollowUpResponseSchema`
(src/unnamed/part_002 lines 481-486). -/
inductive DecisionType where
  | edit
  | full
deriving DecidableEq, Repr

/-- The structured follow-up decision returned by the generation
collaborator (`FollowUpResponseSchema`, src/unnamed/part_002 lines
481-516): a flat object whose `edits` and `code` payloads are nullable. -/
structure FollowUpResponse where
  type : DecisionType
  summary : List Char
  edits : Option (List EditOperation)
  code : Option (List Char)
deriving DecidableEq, Repr

/-- `editType` metadata values (src/unnamed/part_002 line 629). -/
inductive EditType where
  | tool_edit
  | full_replacement
deriving DecidableEq, Repr

/-- Outcome of the follow-up decision handling: a 200 response with final
code and metadata, a 400 `edit_failed` response carrying the PatchEngine
error, or the 400 "Invalid AI response: missing required fields" response. -/
inductive FollowUpOutcome where
  | ok (code : List Char) (editType : EditType) (appliedEdits : Option (List EditOperation))
  | editFailed (err : Option ApplyError) (failedEdit : Option EditOperation)
  | invalidResponse
deriving DecidableEq, Repr

/-- JS truthiness of a nullable array: `null` is falsy, every array —
including the empty array — is truthy. -/
def jsTruthyArr {α : Type} : Option (List α) → Bool
  | some _ => true
  | none => false

/-- JS truthiness of a nullable string: `null` and the empty string are
falsy. -/
def jsTruthyStr : Option (List Char) → Bool
  | some s => !s.isEmpty
  | none => false

/-- The follow-up decision handling of the generation route
(src/unnamed/part_002 lines 953-991): `if (response.type === "edit" &&
response.edits)` apply the edits (400 `edit_failed` on PatchEngine failure),
`else if (response.type === "full" && response.code)` accept the code
verbatim, `else` the invalid-response 400. -/
def handleFollowUpDecision (currentCode : List Char) (response : FollowUpResponse) :
    FollowUpOutcome :=
  if response.type = DecisionType.edit ∧ jsTruthyArr response.edits = true then
    let r := applyEdits currentCode (response.edits.getD [])
    if r.success = false then FollowUpOutcome.editFailed r.error r.failedEdit
    else FollowUpOutcome.ok r.result EditType.tool_edit r.enrichedEdits
  else if response.type = DecisionType.full ∧ jsTruthyStr response.code = true then
    FollowUpOutcome.ok (response.code.getD []) EditType.full_replacement none
  else FollowUpOutcome.invalidResponse

/-- `CodeSnapshot` rows of the `code_snapshots` table, as held in the
`snapshots` state of the history hooks. `createdAt` stands for the
server-assigned `created_at` timestamp. -/
structure Snapshot where
  id : Nat
  code : List Char
  prompt : List Char
  summary : List Char
  skills : List (List Char)
  sequenceNumber : Nat
  createdAt : Nat
deriving DecidableEq, Repr

/-- In-memory state of `useSessionHistory`
(src/src/hooks/useSessionHistory.ts): the `snapshots` array and the
`currentIndex` cursor (a JS number, -1 for the empty state). -/
structure HistoryState where
  snapshots : List Snapshot
  currentIndex : Int
deriving DecidableEq, Repr

/-- The state at mount: `useState<CodeSnapshot[]>([])`, `useState(-1)`. -/
def initialHistoryState : HistoryState := { snapshots := [], currentIndex := -1 }

/-- The `HistoryCursor` invariant of the spec data model:
`-1 <= currentIndex < length(snapshots)`. -/
def histInvariant (st : HistoryState) : Prop :=
  -1 ≤ st.currentIndex ∧ st.currentIndex < (st.snapshots.length : Int)

instance (st : HistoryState) : Decidable (histInvariant st) := by
  unfold histInvariant
  exact inferInstance

/-- `loadSnapshots` of useSessionHistory.ts (lines 35-55), success path:
`rows` is the result of the remote select ordered by sequence number. The
snapshot list is replaced unconditionally; the cursor is set to the last
index ONLY when `lastIdx >= 0` — with zero rows the previous cursor value
is kept. -/
def loadSnapshots (st : HistoryState) (rows : List Snapshot) : HistoryState :=
  { snapshots := rows
    currentIndex :=
      if 0 ≤ (rows.length : Int) - 1 then (rows.length : Int) - 1 else st.currentIndex }

/-- `saveSnapshot` of useSessionHistory.ts (lines 57-101). `inserted` is the
outcome of the remote insert: `none` models `error || !data` (the save is
logged and aborted), `some (newId, createdAt)` the stored row's
server-assigned fields. The remote delete of truncated rows touches only
the database, not this in-memory state. -/
def saveSnapshot (st : HistoryState) (code prompt summary : List Char)
    (skills : List (List Char)) (inserted : Option (Nat × Nat)) : HistoryState :=
  let active := st.snapshots.take (st.currentIndex + 1).toNat
  let seq := active.length
  match inserted with
  | none => st
  | some (newId, createdAt) =>
    let row : Snapshot :=
      { id := newId, code := code, prompt := prompt, summary := summary,
        skills := skills, sequenceNumber := seq, createdAt := createdAt }
    let newSnapshots := active ++ [row]
    { snapshots := newSnapshots, currentIndex := (newSnapshots.length : Int) - 1 }

/-- `undo` of useSessionHistory.ts (lines 103-110): no-op returning `null`
at `currentIndex <= 0`, otherwise decrements the cursor and returns the
code of the snapshot at the new cursor. -/
def undo (st : HistoryState) : HistoryState × Option (List Char) :=
  if st.currentIndex ≤ 0 then (st, none)
  else
    let newIdx := st.currentIndex - 1
    ({ st with currentIndex := newIdx }, (st.snapshots[newIdx.toNat]?).map (·.code))

/-- `redo` of useSessionHistory.ts (lines 112-120): no-op returning `null`
at `currentIndex >= snapshots.length - 1`, otherwise increments the cursor
and returns the code of the snapshot at the new cursor. -/
def redo (st : HistoryState) : HistoryState × Option (List Char) :=
  if (st.snapshots.length : Int) - 1 ≤ st.currentIndex then (st, none)
  else
    let newIdx := st.currentIndex + 1
    ({ st with currentIndex := newIdx }, (st.snapshots[newIdx.toNat]?).map (·.code))

/-- Message roles of `ConversationMessage`
(src/src/hooks/useConversationState.ts). -/
inductive Role where
  | user
  | assistant
  | error
deriving DecidableEq, Repr

/-- `AssistantMetadata`: the skills used and the edit type of the turn. -/
structure AssistantMetadata where
  skills : List (List Char)
  editType : EditType
  appliedEdits : Option (List EditOperation) := none
deriving DecidableEq, Repr

/-- `ConversationMessage` from src/src/hooks/useConversationState.ts: a
tagged record over the three roles; role-specific fields are optional. -/
structure ConversationMessage where
  id : List Char
  role : Role
  content : List Char
  timestamp : Nat
  attachedImages : Option (List (List Char)) := none
  codeSnapshot : Option (List Char) := none
  metadata : Option AssistantMetadata := none
  errorType : Option (List Char) := none
  failedEdit : Option EditOperation := none
deriving DecidableEq, Repr

/-- The pending-message marker (`setPendingMessage`). -/
structure PendingMessage where
  skills : Option (List (List Char))
  startedAt : Nat
deriving DecidableEq, Repr

/-- The full state owned by `useConversationState`: the `ConversationState`
React state (messages, hasManualEdits, lastGenerationTimestamp,
pendingMessage) together with the `lastAiCodeRef` mutable ref that tracks
the last AI-generated code (empty at mount). -/
structure ConvHookState where
  messages : List ConversationMessage
  hasManualEdits : Bool
  lastGenerationTimestamp : Option Nat
  pendingMessage : Option PendingMessage
  lastAiCode : List Char
deriving DecidableEq, Repr

/-- State at mount (useConversationState.ts lines 12-20). -/
def initialConvState : ConvHookState :=
  { messages := [], hasManualEdits := false, lastGenerationTimestamp := none,
    pendingMessage := none, lastAiCode := [] }

/-- `addUserMessage` (lines 22-38); `now` stands for `Date.now()`. -/
def addUserMessage (st : ConvHookState) (now : Nat) (content : List Char)
    (attachedImages : Option (List (List Char))) : ConvHookState :=
  { st with
    messages := st.messages ++
      [{ id := "user-".toList ++ Nat.toDigits 10 now, role := Role.user,
         content := content, timestamp := now, attachedImages := attachedImages }] }

/-- `addAssistantMessage` (lines 40-60): appends the assistant message,
records the generated code in `lastAiCodeRef`, clears `hasManualEdits` and
stamps `lastGenerationTimestamp`. -/
def addAssistantMessage (st : ConvHookState) (now : Nat)
    (content codeSnapshot : List Char) (metadata : Option AssistantMetadata) :
    ConvHookState :=
  { st with
    messages := st.messages ++
      [{ id := "assistant-".toList ++ Nat.toDigits 10 now, role := Role.assistant,
         content := content, timestamp := now, codeSnapshot := some codeSnapshot,
         metadata := metadata }]
    hasManualEdits := false
    lastGenerationTimestamp := some now
    lastAiCode := codeSnapshot }

/-- `addErrorMessage` (lines 62-83). -/
def addErrorMessage (st : ConvHookState) (now : Nat)
    (content errorType : List Char) (failedEdit : Option EditOperation) :
    ConvHookState :=
  { st with
    messages := st.messages ++
      [{ id := "error-".toList ++ Nat.toDigits 10 now, role := Role.error,
         content := content, timestamp := now, errorType := some errorType,
         failedEdit := failedEdit }] }

/-- `markManualEdit` (lines 85-93): sets `hasManualEdits` only when the
current code differs from the last AI generation AND a last AI generation
exists (`lastAiCodeRef.current !== ""`). -/
def markManualEdit (st : ConvHookState) (currentCode : List Char) : ConvHookState :=
  if currentCode ≠ st.lastAiCode ∧ st.lastAiCode ≠ [] then
    { st with hasManualEdits := true }
  else st

/-- `clearConversation` (lines 95-103). -/
def clearConversation (_st : ConvHookState) : ConvHookState := initialConvState

/-- The messages reconstructed from one snapshot by
`initializeFromSnapshots` (lines 106-128): a user message when
`snapshot.prompt` is truthy (nonempty), then an assistant message whose
content falls back to "Generated animation" when the summary is falsy. -/
def messagesOfSnapshot (s : Snapshot) : List ConversationMessage :=
  (if s.prompt ≠ [] then
    [{ id := "user-".toList ++ Nat.toDigits 10 s.id, role := Role.user,
       content := s.prompt, timestamp := s.createdAt }]
   else []) ++
  [{ id := "assistant-".toList ++ Nat.toDigits 10 s.id, role := Role.assistant,
     content := if s.summary ≠ [] then s.summary else "Generated animation".toList,
     timestamp := s.createdAt, codeSnapshot := some s.code,
     metadata := some { skills := s.skills, editType := EditType.full_replacement } }]

/-- `initializeFromSnapshots` (lines 106-139): rebuilds the message list
from the stored snapshots, updates `lastAiCodeRef` only when a last
snapshot exists (with zero snapshots the ref keeps its previous value),
clears `hasManualEdits` and the pending message. -/
def initializeFromSnapshots (st : ConvHookState) (now : Nat)
    (snapshots : List Snapshot) : ConvHookState :=
  { messages := snapshots.flatMap messagesOfSnapshot
    hasManualEdits := false
    lastGenerationTimestamp := some now
    pendingMessage := none
    lastAiCode :=
      match snapshots.getLast? with
      | some s => s.code
      | none => st.lastAiCode }

/-- `setPendingMessage` (lines 141-149). -/
def setPendingMessage (st : ConvHookState) (now : Nat)
    (skills : Option (List (List Char))) : ConvHookState :=
  { st with pendingMessage := some { skills := skills, startedAt := now } }

/-- `clearPendingMessage` (lines 151-156). -/
def clearPendingMessage (st : ConvHookState) : ConvHookState :=
  { st with pendingMessage := none }

/-- The operations of `useConversationState` that touch its state, as an
operation alphabet for reasoning about arbitrary call sequences. `now`
arguments stand for `Date.now()` at the call. -/
inductive ConvOp where
  | opAddUser (now : Nat) (content : List Char) (attachedImages : Option (List (List Char)))
  | opAddAssistant (now : Nat) (content codeSnapshot : List Char)
      (metadata : Option AssistantMetadata)
  | opAddError (now : Nat) (content errorType : List Char)
      (failedEdit : Option EditOperation)
  | opMarkManualEdit (currentCode : List Char)
  | opClearConversation
  | opInitializeFromSnapshots (now : Nat) (rows : List Snapshot)
  | opSetPendingMessage (now : Nat) (skills : Option (List (List Char)))
  | opClearPendingMessage
deriving DecidableEq, Repr

/-- Interpret one conversation-state operation. -/
def applyConvOp (st : ConvHookState) : ConvOp → ConvHookState
  | ConvOp.opAddUser now content images => addUserMessage st now content images
  | ConvOp.opAddAssistant now content codeSnapshot meta =>
    addAssistantMessage st now content codeSnapshot meta
  | ConvOp.opAddError now content errorType failedEdit =>
    addErrorMessage st now content errorType failedEdit
  | ConvOp.opMarkManualEdit currentCode => markManualEdit st currentCode
  | ConvOp.opClearConversation => clearConversation st
  | ConvOp.opInitializeFromSnapshots now rows => initializeFromSnapshots st now rows
  | ConvOp.opSetPendingMessage now skills => setPendingMessage st now skills
  | ConvOp.opClearPendingMessage => clearPendingMessage st

/-- Interpret a sequence of conversation-state operations, oldest first. -/
def applyConvOps (st : ConvHookState) : List ConvOp → ConvHookState
  | [] => st
  | op :: rest => applyConvOps (applyConvOp st op) rest

/-- Whether an operation records at least one assistant message. -/
def recordsAssistant : ConvOp → Bool
  | ConvOp.opAddAssistant _ _ _ _ => true
  | ConvOp.opInitializeFromSnapshots _ rows => !rows.isEmpty
  | _ => false

/-- The context entries produced by `getFullContext`
(`ConversationContextMessage`). -/
structure ConversationContextMessage where
  role : Role
  content : List Char
  attachedImages : Option (List (List Char))
deriving DecidableEq, Repr

/-- The fixed marker substituted for assistant content in the LLM-facing
context (useConversationState.ts line 165). -/
def placeholderContent : List Char := "[Generated Code]".toList

/-- JS truthiness of `m.attachedImages && m.attachedImages.length > 0`. -/
def hasNonEmptyImages : Option (List (List Char)) → Bool
  | some l => !l.isEmpty
  | none => false

/-- `getFullContext` (useConversationState.ts lines 159-171): keeps only
user and assistant messages, replaces assistant content by the fixed
placeholder, and forwards attached images only for user messages that have
a nonempty image list. -/
def getFullContext (messages : List ConversationMessage) :
    List ConversationContextMessage :=
  (messages.filter (fun m =>
      decide (m.role = Role.user) || decide (m.role = Role.assistant))).map
    (fun m =>
      { role := m.role
        content := if m.role = Role.user then m.content else placeholderContent
        attachedImages :=
          if m.role = Role.user ∧ hasNonEmptyImages m.attachedImages = true then
            m.attachedImages
          else none })

/-- `MAX_CORRECTION_ATTEMPTS` from
src/src/app/videos/[sessionId]/page.tsx line 25. -/
def MAX_CORRECTION_ATTEMPTS : Nat := 3

/-- Events observable from the self-correction loop: an automatic
corrective retry carrying its attempt number, or the terminal failure
report shown to the user. -/
inductive CorrectionEvent where
  | retried (attemptNumber : Nat)
  | terminal
deriving DecidableEq, Repr

/-- Whether a correction event is an automatic retry. -/
def isRetry : CorrectionEvent → Bool
  | CorrectionEvent.retried _ => true
  | CorrectionEvent.terminal => false

/-- Modelled from the spec: the `useAutoCorrection` hook (SelfCorrectionLoop,
spec section 4.5) is not under src/ — only its call site in
src/src/app/videos/[sessionId]/page.tsx is. Policy per the spec:
`attemptNumber` starts at 1 and is capped at `maxAttempts`; each qualifying
failure triggers an automatic corrective retry with the incremented attempt
number while that number stays within `maxAttempts`; a failure that would
push past `maxAttempts` is left visible to the user as a terminal error with
no further automatic action; a success clears the correction context.
`outcomes` lists the result of each settled turn (`true` = success), and the
returned trace lists the loop's automatic actions. -/
def selfCorrectionLoop (maxAttempts : Nat) : Nat → List Bool → List CorrectionEvent
  | _, [] => []
  | attempt, outcome :: rest =>
    if outcome then []
    else if attempt < maxAttempts then
      CorrectionEvent.retried (attempt + 1) ::
        selfCorrectionLoop maxAttempts (attempt + 1) rest
    else [CorrectionEvent.terminal]

/-- A concrete edit whose `old_string` occurs nowhere in `"abab"`. -/
def editZZ : EditOperation :=
  { description := "d".toList, old_string := "zz".toList, new_string := "y".toList }

/-- A concrete edit whose `old_string` occurs twice in `"abab"`. -/
def editAB : EditOperation :=
  { description := "d".toList, old_string := "ab".toList, new_string := "y".toList }

/-- A concrete snapshot row used in witnesses. -/
def rowA : Snapshot :=
  { id := 0, code := "a".toList, prompt := [], summary := [], skills := [],
    sequenceNumber := 0, createdAt := 0 }

/-- History state reached from the initial state by one successful save. -/
def hs1 : HistoryState :=
  saveSnapshot initialHistoryState "a".toList [] [] [] (some (0, 0))

/-- History state reached from the initial state by two successful saves. -/
def hs2 : HistoryState :=
  saveSnapshot hs1 "b".toList [] [] [] (some (1, 1))

/-- A concrete error-role message used in witnesses. -/
def msgErrA : ConversationMessage :=
  { id := "error-1".toList, role := Role.error, content := "boom".toList,
    timestamp := 1, errorType := some "api".toList }

/-- A concrete assistant message carrying generated code, used in
witnesses. -/
def msgAsstA : ConversationMessage :=
  { id := "assistant-2".toList, role := Role.assistant, content := "done".toList,
    timestamp := 2, codeSnapshot := some "export const A = 1;".toList }

/-- The context entry `getFullContext` derives from `msgAsstA`. -/
def cmA : ConversationContextMessage :=
  { role := Role.assistant, content := placeholderContent, attachedImages := none }

/-- A concrete sequence of conversation-state operations with no
assistant recording, used in witnesses. -/
def demoConvOps : List ConvOp :=
  [ConvOp.opAddUser 1 "hi".toList none,
   ConvOp.opSetPendingMessage 2 none,
   ConvOp.opMarkManualEdit "const X = 1;".toList,
   ConvOp.opAddError 3 "failed".toList "api".toList none,
   ConvOp.opInitializeFromSnapshots 4 [],
   ConvOp.opMarkManualEdit "const Y = 2;".toList]

theorem countPos_eq_zero_of_findSub_none (old : List Char) :
    ∀ code, findSub old code = none → countPos old code = 0 := by
  intro code
  induction code with
  | nil =>
    intro h
    simp only [findSub] at h
    split at h
    · exact absurd h (by simp)
    · next hp => simp [countPos, hp]
  | cons c rest ih =>
    intro h
    simp only [findSub] at h
    split at h
    · exact absurd h (by simp)
    · next hp =>
      have hnone : findSub old rest = none := by
        cases hf : findSub old rest with
        | none => rfl
        | some v => rw [hf] at h; simp at h
      simp [countPos, hp, ih hnone]

theorem one_le_countPos_nil : ∀ l : List Char, 1 ≤ countPos [] l := by
  intro l
  cases l with
  | nil => simp [countPos]
  | cons c rest => simp [countPos, List.isPrefixOf]

theorem countNonOverlapAux_le_countPos (old : List Char) :
    ∀ code skip, countNonOverlapAux old code skip ≤ countPos old code := by
  intro code
  induction code with
  | nil => intro skip; simp [countNonOverlapAux]
  | cons c rest ih =>
    intro skip
    match skip with
    | 0 =>
      simp only [countNonOverlapAux, countPos]
      split
      · exact Nat.add_le_add (Nat.le_refl 1) (ih (old.length - 1))
      · exact le_trans (ih 0) (Nat.le_add_left _ _)
    | skip + 1 =>
      simp only [countNonOverlapAux, countPos]
      exact le_trans (ih skip) (Nat.le_add_left _ _)

theorem getSubstitution_eq_self (matched pre post : List Char) :
    ∀ repl, dollarChar ∉ repl → getSubstitution matched pre post repl = repl := by
  intro repl
  induction repl with
  | nil => intro _; rfl
  | cons c rest ih =>
    intro h
    have hc : ¬ c = dollarChar := by
      intro e
      exact h (by simp [e])
    have hrest : dollarChar ∉ rest := by
      intro e
      exact h (List.mem_cons_of_mem c e)
    cases rest with
    | nil => rfl
    | cons d rest2 =>
      simp only [getSubstitution, if_neg hc]
      rw [ih hrest]

/-- If all edits before position `pre.length` pass their checks, `applyEdits`
run on `pre ++ e :: post` fails at `e` — with `notFound` when `e.old_string`
is absent from the current buffer, with `ambiguous` (carrying the JS match
count) when it occurs more than once — and in both cases hands back the
ORIGINAL code. -/
theorem applyEditsGo_fail (orig : List Char) (e : EditOperation)
    (post : List EditOperation) :
    ∀ (pre : List EditOperation) (buf : List Char) (i : Nat)
      (acc : List EditOperation), allOk buf pre = true →
      ((jsIncludes (bufAfter buf pre) e.old_string = false →
        applyEditsGo orig buf i acc (pre ++ e :: post) =
          { success := false, result := orig,
            error := some (ApplyError.notFound (i + pre.length + 1) e),
            failedEdit := some e })
      ∧ (jsIncludes (bufAfter buf pre) e.old_string = true →
          1 < jsMatchCount (bufAfter buf pre) e.old_string →
          applyEditsGo orig buf i acc (pre ++ e :: post) =
            { success := false, result := orig,
              error := some (ApplyError.ambiguous (i + pre.length + 1)
                (jsMatchCount (bufAfter buf pre) e.old_string) e),
              failedEdit := some e })) := by
  intro pre
  induction pre with
  | nil =>
    intro buf i acc _
    constructor
    · intro hnf
      simp only [bufAfter] at hnf
      simp [applyEditsGo, hnf]
    · intro hinc hamb
      simp only [bufAfter] at hinc hamb
      simp only [List.nil_append, applyEditsGo, hinc]
      simp only [Bool.true_eq_false, if_false, if_pos hamb]
      simp [bufAfter]
  | cons p pre' ih =>
    intro buf i acc hok
    simp only [allOk, Bool.and_eq_true, editOkB, decide_eq_true_eq] at hok
    obtain ⟨⟨hpinc, hple⟩, hok'⟩ := hok
    have hstep := ih (applyStep buf p) (i + 1)
      (acc ++ [{ p with lineNumber := some (getLineNumber buf p.old_string) }]) hok'
    have hlen : i + 1 + pre'.length + 1 = i + (p :: pre').length + 1 := by
      simp only [List.length_cons]
      omega
    have hbuf : bufAfter (applyStep buf p) pre' = bufAfter buf (p :: pre') := by
      simp [bufAfter]
    constructor
    · intro hnf
      rw [← hbuf] at hnf
      have h2 := hstep.1 hnf
      simp only [applyStep] at h2
      simp only [List.cons_append, applyEditsGo, hpinc, Bool.true_eq_false, if_false,
        if_neg (by omega : ¬ 1 < jsMatchCount buf p.old_string), List.append_eq]
      rw [h2, hlen]
    · intro hinc hamb
      rw [← hbuf] at hinc hamb
      have h2 := hstep.2 hinc hamb
      rw [hbuf] at h2
      simp only [applyStep] at h2
      simp only [List.cons_append, applyEditsGo, hpinc, Bool.true_eq_false, if_false,
        if_neg (by omega : ¬ 1 < jsMatchCount buf p.old_string), List.append_eq]
      rw [h2, hlen]

/-- C1 (amended): for every code buffer and a single edit whose `old_string`
occurs in the buffer exactly once (counting occurrence positions) at index
`i`, and whose `new_string` contains no dollar character, `applyEdits`
returns success with exactly that occurrence replaced by `new_string` and
every character outside the replaced span unchanged. The dollar restriction
is forced by JS `String.replace` substitution patterns (see
`c1_counterexample`). -/
theorem c1_single_edit_replaces_unique_occurrence
    (code old new desc : List Char) (i : Nat)
    (hcount : countPos old code = 1)
    (hfind : findSub old code = some i)
    (hdollar : dollarChar ∉ new) :
    applyEdits code [{ description := desc, old_string := old, new_string := new }] =
      { success := true
        result := code.take i ++ new ++ code.drop (i + old.length)
        enrichedEdits := some [{ description := desc, old_string := old,
                                 new_string := new,
                                 lineNumber := some (getLineNumber code old) }] } := by
  have hinc : jsIncludes code old = true := by simp [jsIncludes, hfind]
  have hm : jsMatchCount code old ≤ 1 := by
    by_cases ho : old = []
    · subst ho
      have hcode : code = [] := by
        cases code with
        | nil => rfl
        | cons c r =>
          exfalso
          have hr := one_le_countPos_nil r
          simp only [countPos, List.isPrefixOf, if_pos trivial, if_true] at hcount
          omega
      subst hcode
      simp [jsMatchCount, jsSplitLen]
    · have hle : countNonOverlapAux old code 0 ≤ 1 := by
        have h := countNonOverlapAux_le_countPos old code 0
        omega
      simp only [jsMatchCount, jsSplitLen, if_neg ho, countNonOverlap]
      push_cast
      omega
  simp only [applyEdits, applyEditsGo, hinc, Bool.true_eq_false, if_false]
  rw [if_neg (by omega : ¬ 1 < jsMatchCount code old)]
  simp only [applyEditsGo, List.nil_append]
  simp only [jsReplace, hfind]
  rw [getSubstitution_eq_self old (code.take i) (code.drop (i + old.length)) new hdollar]

/-- C1 counterexample: the single edit `old_string = "a"`,
`new_string` containing the JS replacement pattern dollar-ampersand, on the
buffer `"ab"` in which `"a"` occurs exactly once. The claim predicts the
result `"ab".take 0 ++ new_string ++ "ab".drop 1`; `applyEdits` instead
returns `"aab"` because JS `String.replace` expands dollar-ampersand to the
matched text. -/
theorem c1_counterexample :
    countPos "a".toList "ab".toList = 1 ∧
    (applyEdits "ab".toList
        [{ description := "d".toList, old_string := "a".toList,
           new_string := "$&$&".toList }]).success = true ∧
    (applyEdits "ab".toList
        [{ description := "d".toList, old_string := "a".toList,
           new_string := "$&$&".toList }]).result = "aab".toList ∧
    (applyEdits "ab".toList
        [{ description := "d".toList, old_string := "a".toList,
           new_string := "$&$&".toList }]).result ≠
      "ab".toList.take 0 ++ "$&$&".toList ++ "ab".toList.drop 1 := by
  decide

/-- C1 witness: the amended theorem evaluated on the buffer
`"color: red;"` with the edit replacing `"red"` by `"blue"`. -/
theorem c1_witness :
    countPos "red".toList "color: red;".toList = 1 ∧
    applyEdits "color: red;".toList
        [{ description := "c".toList, old_string := "red".toList,
           new_string := "blue".toList }] =
      { success := true
        result := "color: red;".toList.take 7 ++ "blue".toList
          ++ "color: red;".toList.drop 10
        enrichedEdits := some [{ description := "c".toList, old_string := "red".toList,
                                 new_string := "blue".toList,
                                 lineNumber := some (getLineNumber "color: red;".toList
                                   "red".toList) }] } :=
  ⟨by decide,
    c1_single_edit_replaces_unique_occurrence "color: red;".toList "red".toList
      "blue".toList "c".toList 7 (by decide) (by decide) (by decide)⟩

/-- C3: if the edits before position `pre.length` all pass their checks,
then when edit `e`'s `old_string` does not occur in the current buffer,
`applyEdits` fails with `notFound` carrying the 1-based index of the failing
edit and the edit itself; when it occurs more than once (JS match count
above 1), it fails with `ambiguous` carrying the match count and the edit;
in both cases the returned code is exactly the original input buffer. -/
theorem c3_applyEdits_failure_returns_original_code
    (code : List Char) (pre post : List EditOperation) (e : EditOperation)
    (hprev : allOk code pre = true) :
    (jsIncludes (bufAfter code pre) e.old_string = false →
      applyEdits code (pre ++ e :: post) =
        { success := false, result := code,
          error := some (ApplyError.notFound (pre.length + 1) e),
          failedEdit := some e }) ∧
    (jsIncludes (bufAfter code pre) e.old_string = true →
      1 < jsMatchCount (bufAfter code pre) e.old_string →
      applyEdits code (pre ++ e :: post) =
        { success := false, result := code,
          error := some (ApplyError.ambiguous (pre.length + 1)
            (jsMatchCount (bufAfter code pre) e.old_string) e),
          failedEdit := some e }) := by
  have h := applyEditsGo_fail code e post pre code 0 [] hprev
  simpa only [applyEdits, Nat.zero_add] using h

/-- C3 witness: the failure theorem evaluated at a missing `old_string`
(`"zz"` in `"abab"`, `notFound` at index 1, original code returned) and at
an ambiguous one (`"ab"` occurs twice in `"abab"`, `ambiguous` with match
count 2, original code returned). -/
theorem c3_witness :
    allOk "abab".toList [] = true ∧
    applyEdits "abab".toList [editZZ] =
      { success := false, result := "abab".toList,
        error := some (ApplyError.notFound 1 editZZ),
        failedEdit := some editZZ } ∧
    applyEdits "abab".toList [editAB] =
      { success := false, result := "abab".toList,
        error := some (ApplyError.ambiguous 1 2 editAB),
        failedEdit := some editAB } :=
  ⟨by decide,
    (c3_applyEdits_failure_returns_original_code "abab".toList [] [] editZZ
      (by decide)).1 (by decide),
    (c3_applyEdits_failure_returns_original_code "abab".toList [] [] editAB
      (by decide)).2 (by decide) (by decide)⟩

/-- C2 (amended): a follow-up decision of kind `edit` whose `edits` payload
is null, or of kind `full` whose `code` payload is null or the empty string,
fails with the invalid-response outcome and applies no edit. (An `edit`
decision with an EMPTY but non-null edit list does NOT fail — the empty
array is truthy in JS, so it succeeds as a no-op; see
`c2_counterexample`.) -/
theorem c2_null_payload_fails_invalid_response
    (currentCode : List Char) (response : FollowUpResponse)
    (h : (response.type = DecisionType.edit ∧ response.edits = none) ∨
         (response.type = DecisionType.full ∧
           (response.code = none ∨ response.code = some []))) :
    handleFollowUpDecision currentCode response = FollowUpOutcome.invalidResponse := by
  rcases h with ⟨ht, he⟩ | ⟨ht, hc⟩
  · simp [handleFollowUpDecision, ht, he, jsTruthyArr]
  · rcases hc with hc | hc <;>
      simp [handleFollowUpDecision, ht, hc, jsTruthyStr, List.isEmpty]

/-- C2 counterexample: a follow-up decision of kind `edit` with an EMPTY
edit list (`edits = some []`). The claim predicts failure with
`InvalidResponse`; the handler instead succeeds, returning the current code
unchanged, because the empty array is truthy in JS. -/
theorem c2_counterexample :
    handleFollowUpDecision "abc".toList
        { type := DecisionType.edit, summary := "s".toList, edits := some [],
          code := none } =
      FollowUpOutcome.ok "abc".toList EditType.tool_edit (some []) ∧
    handleFollowUpDecision "abc".toList
        { type := DecisionType.edit, summary := "s".toList, edits := some [],
          code := none } ≠
      FollowUpOutcome.invalidResponse := by
  decide

/-- C2 witness: the amended theorem evaluated on an `edit` decision whose
`edits` payload is null. -/
theorem c2_witness :
    ({ type := DecisionType.edit, summary := "s".toList, edits := none,
       code := some "x".toList } : FollowUpResponse).edits = none ∧
    handleFollowUpDecision "abc".toList
        { type := DecisionType.edit, summary := "s".toList, edits := none,
          code := some "x".toList } = FollowUpOutcome.invalidResponse :=
  ⟨by decide,
    c2_null_payload_fails_invalid_response "abc".toList
      { type := DecisionType.edit, summary := "s".toList, edits := none,
        code := some "x".toList } (Or.inl ⟨by decide, by decide⟩)⟩

/-- C4 (amended): for every history state with a well-formed cursor,
duplicate-free snapshot ids and a positive cursor (so that `undo` actually
moves), performing `undo()` and then a successful `save(...)` truncates the
redo tail: the in-memory list becomes the pre-undo prefix below the cursor
followed by the new snapshot, whose `sequenceNumber` equals the pre-undo
cursor position, and — the inserted row's id being fresh — every snapshot
that lay at or beyond the pre-undo cursor is absent from the resulting
in-memory snapshot list. When the pre-undo cursor is 0 or -1 the claim
fails, because `undo` is then a no-op (see `c4_counterexample`). -/
theorem c4_undo_then_save_truncates_redo_tail
    (st : HistoryState) (code prompt summary : List Char) (skills : List (List Char))
    (newId createdAt : Nat)
    (hinv : histInvariant st)
    (hpos : 0 < st.currentIndex)
    (hnodup : (st.snapshots.map (fun s => s.id)).Nodup)
    (hfresh : newId ∉ st.snapshots.map (fun s => s.id)) :
    (saveSnapshot (undo st).1 code prompt summary skills
        (some (newId, createdAt))).snapshots =
      st.snapshots.take st.currentIndex.toNat ++
        [{ id := newId, code := code, prompt := prompt, summary := summary,
           skills := skills, sequenceNumber := st.currentIndex.toNat,
           createdAt := createdAt }] ∧
    ∀ s ∈ st.snapshots.drop st.currentIndex.toNat,
      s ∉ (saveSnapshot (undo st).1 code prompt summary skills
        (some (newId, createdAt))).snapshots := by
  obtain ⟨h1, h2⟩ := hinv
  have hno : ¬ st.currentIndex ≤ 0 := by omega
  have hst1 : (undo st).1 =
      { snapshots := st.snapshots, currentIndex := st.currentIndex - 1 } := by
    simp [undo, hno]
  have hactive : (st.currentIndex - 1 + 1).toNat = st.currentIndex.toNat := by omega
  have hseq : (st.snapshots.take st.currentIndex.toNat).length =
      st.currentIndex.toNat := by
    rw [List.length_take]
    omega
  have hsnaps : (saveSnapshot (undo st).1 code prompt summary skills
      (some (newId, createdAt))).snapshots =
      st.snapshots.take st.currentIndex.toNat ++
        [{ id := newId, code := code, prompt := prompt, summary := summary,
           skills := skills, sequenceNumber := st.currentIndex.toNat,
           createdAt := createdAt }] := by
    rw [hst1]
    simp only [saveSnapshot]
    rw [hactive, hseq]
  refine ⟨hsnaps, ?_⟩
  intro s hs hmem
  rw [hsnaps, List.mem_append] at hmem
  have hid : s.id ∈ st.snapshots.map (fun t => t.id) :=
    List.mem_map_of_mem _ (List.mem_of_mem_drop hs)
  rcases hmem with hmem | hmem
  · have hmap : st.snapshots.map (fun t => t.id) =
        (st.snapshots.take st.currentIndex.toNat).map (fun t => t.id) ++
        (st.snapshots.drop st.currentIndex.toNat).map (fun t => t.id) := by
      rw [← List.map_append, List.take_append_drop]
    rw [hmap] at hnodup
    exact (List.nodup_append.mp hnodup).2.2 (List.mem_map_of_mem _ hmem)
      (List.mem_map_of_mem _ hs)
  · have hrow : s.id = newId := by
      have hs_eq := List.mem_singleton.mp hmem
      rw [hs_eq]
    rw [hrow] at hid
    exact hfresh hid

/-- C4 counterexample: the reachable state `hs1` (one save, cursor 0).
There `undo()` is a no-op, and the following successful save stores a
snapshot with `sequenceNumber` 1, not the pre-undo cursor position 0 —
refuting the claim for this reachable state. -/
theorem c4_counterexample :
    hs1.currentIndex = 0 ∧
    ((saveSnapshot (undo hs1).1 "c".toList [] [] [] (some (1, 1))).snapshots.map
      (fun s => s.sequenceNumber)) = [0, 1] ∧
    ¬ (((saveSnapshot (undo hs1).1 "c".toList [] [] [] (some (1, 1))).snapshots.getLast?).map
        (fun s => s.sequenceNumber) = some hs1.currentIndex.toNat) := by
  decide

/-- C4 witness: the amended theorem evaluated at the reachable state `hs2`
(two saves, cursor 1), saving fresh id 2 after an undo. -/
theorem c4_witness :
    0 < hs2.currentIndex ∧
    (saveSnapshot (undo hs2).1 "c".toList "p".toList "s".toList []
        (some (2, 2))).snapshots =
      hs2.snapshots.take hs2.currentIndex.toNat ++
        [{ id := 2, code := "c".toList, prompt := "p".toList, summary := "s".toList,
           skills := [], sequenceNumber := hs2.currentIndex.toNat, createdAt := 2 }] :=
  ⟨by decide,
    (c4_undo_then_save_truncates_redo_tail hs2 "c".toList "p".toList "s".toList []
      2 2 (by decide) (by decide) (by decide) (by decide)).1⟩

/-- C5: the cursor invariant `-1 <= currentIndex < length(snapshots)` is NOT
preserved by every operation sequence: loading a session with one row and
then loading a session with zero rows leaves `currentIndex = 0` while the
snapshot list is empty, because `loadSnapshots` only moves the cursor when
the loaded list is nonempty (useSessionHistory.ts lines 49-53), where the
spec requires the cursor to be set to -1 when there are no rows. -/
theorem c5_load_zero_rows_breaks_cursor_invariant :
    histInvariant (loadSnapshots initialHistoryState [rowA]) ∧
    loadSnapshots (loadSnapshots initialHistoryState [rowA]) [] =
      { snapshots := [], currentIndex := 0 } ∧
    ¬ histInvariant (loadSnapshots (loadSnapshots initialHistoryState [rowA]) []) := by
  decide

/-- C7: when the remote insert of a snapshot fails, the save is aborted
atomically — the in-memory snapshot list and the cursor are left exactly as
they were before the save. -/
theorem c7_save_insert_failure_leaves_state_unchanged
    (st : HistoryState) (code prompt summary : List Char)
    (skills : List (List Char)) :
    (saveSnapshot st code prompt summary skills none).snapshots = st.snapshots ∧
    (saveSnapshot st code prompt summary skills none).currentIndex =
      st.currentIndex :=
  ⟨rfl, rfl⟩

/-- C9: under the cursor invariant, `undo()` at `currentIndex <= 0` is a
no-op returning nothing with the state unchanged; `redo()` at
`currentIndex >= length - 1` likewise; otherwise `undo`/`redo` move the
cursor by exactly one and return the code of the snapshot at the new
cursor. -/
theorem c9_undo_redo_boundaries_and_moves
    (st : HistoryState) (hinv : histInvariant st) :
    (st.currentIndex ≤ 0 → undo st = (st, none)) ∧
    ((st.snapshots.length : Int) - 1 ≤ st.currentIndex → redo st = (st, none)) ∧
    (0 < st.currentIndex →
      (undo st).1 = { st with currentIndex := st.currentIndex - 1 } ∧
      ∃ snap, st.snapshots[(st.currentIndex - 1).toNat]? = some snap ∧
        (undo st).2 = some snap.code) ∧
    (st.currentIndex < (st.snapshots.length : Int) - 1 →
      (redo st).1 = { st with currentIndex := st.currentIndex + 1 } ∧
      ∃ snap, st.snapshots[(st.currentIndex + 1).toNat]? = some snap ∧
        (redo st).2 = some snap.code) := by
  obtain ⟨h1, h2⟩ := hinv
  refine ⟨?_, ?_, ?_, ?_⟩
  · intro h
    simp [undo, h]
  · intro h
    simp [redo, h]
  · intro h
    have hno : ¬ st.currentIndex ≤ 0 := by omega
    have heq : (st.currentIndex - 1).toNat = st.currentIndex.toNat - 1 := by omega
    have hidx : st.currentIndex.toNat - 1 < st.snapshots.length := by omega
    have hget := List.getElem?_eq_getElem hidx
    refine ⟨by simp [undo, hno], ?_⟩
    rw [heq]
    exact ⟨_, hget, by simp [undo, hno, heq, hget]⟩
  · intro h
    have hno : ¬ (st.snapshots.length : Int) - 1 ≤ st.currentIndex := by omega
    have hidx : (st.currentIndex + 1).toNat < st.snapshots.length := by omega
    have hget := List.getElem?_eq_getElem hidx
    refine ⟨by simp [redo, hno], ?_⟩
    exact ⟨_, hget, by simp [redo, hno, hget]⟩

/-- C9 witness: the boundary cases evaluated at the reachable states `hs1`
(cursor 0: undo is a no-op) and `hs2` (cursor at last index: redo is a
no-op). -/
theorem c9_witness :
    histInvariant hs1 ∧ undo hs1 = (hs1, none) ∧ redo hs2 = (hs2, none) :=
  ⟨by decide,
    (c9_undo_redo_boundaries_and_moves hs1 (by decide)).1 (by decide),
    (c9_undo_redo_boundaries_and_moves hs2 (by decide)).2.1 (by decide)⟩

/-- C8: every entry of the LLM-facing context view derived from any message
list has a non-error role, and every assistant entry's content is exactly
the fixed placeholder string — never the literal generated code. -/
theorem c8_full_context_excludes_errors_and_redacts_assistants
    (messages : List ConversationMessage) (cm : ConversationContextMessage)
    (h : cm ∈ getFullContext messages) :
    cm.role ≠ Role.error ∧
    (cm.role = Role.assistant → cm.content = placeholderContent) := by
  simp only [getFullContext, List.mem_map] at h
  obtain ⟨m, hm, rfl⟩ := h
  rw [List.mem_filter] at hm
  have hrole := hm.2
  simp only [Bool.or_eq_true, decide_eq_true_eq] at hrole
  rcases hrole with hu | ha
  · exact ⟨by simp [hu], by simp [hu]⟩
  · have hne : ¬ m.role = Role.user := by
      rw [ha]
      intro hcontra
      cases hcontra
    exact ⟨by simp [ha], by simp [hne]⟩

/-- C8 witness: the context view of a list holding one error message and
one assistant message with real generated code: the derived entry `cmA` has
a non-error role and placeholder content. -/
theorem c8_witness :
    cmA ∈ getFullContext [msgErrA, msgAsstA] ∧
    cmA.role ≠ Role.error ∧
    (cmA.role = Role.assistant → cmA.content = placeholderContent) :=
  ⟨by decide,
    c8_full_context_excludes_errors_and_redacts_assistants [msgErrA, msgAsstA] cmA
      (by decide)⟩

/-- Helper for C10: along any operation sequence that records no assistant
message, both `hasManualEdits` and the tracked last-AI-generated code stay
at their initial values. -/
theorem applyConvOps_no_assistant_keeps_flag_clear (ops : List ConvOp) :
    ∀ st : ConvHookState, st.hasManualEdits = false → st.lastAiCode = [] →
      (∀ op ∈ ops, recordsAssistant op = false) →
      (applyConvOps st ops).hasManualEdits = false ∧
      (applyConvOps st ops).lastAiCode = [] := by
  induction ops with
  | nil =>
    intro st h1 h2 _
    exact ⟨h1, h2⟩
  | cons op rest ih =>
    intro st h1 h2 hall
    have hop := hall op (List.mem_cons_self op rest)
    have hrest : ∀ o ∈ rest, recordsAssistant o = false :=
      fun o ho => hall o (List.mem_cons_of_mem op ho)
    cases op with
    | opAddUser now content images =>
      exact ih _ (by simp [applyConvOp, addUserMessage, h1])
        (by simp [applyConvOp, addUserMessage, h2]) hrest
    | opAddAssistant now content codeSnapshot meta =>
      simp [recordsAssistant] at hop
    | opAddError now content errorType failedEdit =>
      exact ih _ (by simp [applyConvOp, addErrorMessage, h1])
        (by simp [applyConvOp, addErrorMessage, h2]) hrest
    | opMarkManualEdit currentCode =>
      have hsame : markManualEdit st currentCode = st := by
        simp [markManualEdit, h2]
      exact ih _ (by simp [applyConvOp, hsame, h1])
        (by simp [applyConvOp, hsame, h2]) hrest
    | opClearConversation =>
      exact ih _ (by simp [applyConvOp, clearConversation, initialConvState])
        (by simp [applyConvOp, clearConversation, initialConvState]) hrest
    | opInitializeFromSnapshots now rows =>
      have hrows : rows = [] := by
        simp only [recordsAssistant, Bool.not_eq_false'] at hop
        exact List.isEmpty_iff.mp hop
      subst hrows
      exact ih _ (by simp [applyConvOp, initializeFromSnapshots])
        (by simp [applyConvOp, initializeFromSnapshots, h2]) hrest
    | opSetPendingMessage now skills =>
      exact ih _ (by simp [applyConvOp, setPendingMessage, h1])
        (by simp [applyConvOp, setPendingMessage, h2]) hrest
    | opClearPendingMessage =>
      exact ih _ (by simp [applyConvOp, clearPendingMessage, h1])
        (by simp [applyConvOp, clearPendingMessage, h2]) hrest

/-- C10: for every sequence of conversation-state operations recording no
assistant message, `hasManualEdits` stays false from the initial state;
`markManualEdit` never sets the flag while the tracked last-AI-generated
code is empty, for every code value passed; and recording an assistant
message resets the flag to false. -/
theorem c10_manual_edit_flag_requires_prior_generation
    (ops : List ConvOp) (h : ∀ op ∈ ops, recordsAssistant op = false) :
    (applyConvOps initialConvState ops).hasManualEdits = false ∧
    (∀ (st : ConvHookState) (code : List Char), st.lastAiCode = [] →
      (markManualEdit st code).hasManualEdits = st.hasManualEdits) ∧
    (∀ (st : ConvHookState) (now : Nat) (content codeSnapshot : List Char)
      (metadata : Option AssistantMetadata),
      (addAssistantMessage st now content codeSnapshot metadata).hasManualEdits =
        false) := by
  refine ⟨(applyConvOps_no_assistant_keeps_flag_clear ops initialConvState rfl rfl h).1,
    ?_, fun st now content codeSnapshot metadata => rfl⟩
  intro st code hempty
  simp [markManualEdit, hempty]

/-- C10 witness: the flag theorem evaluated on a concrete operation
sequence with user messages, pending-message updates, error messages, an
empty session restore and manual-edit notifications — the flag stays
false. -/
theorem c10_witness :
    (applyConvOps initialConvState demoConvOps).hasManualEdits = false :=
  (c10_manual_edit_flag_requires_prior_generation demoConvOps (by decide)).1

/-- C6: with `maxAttempts = MAX_CORRECTION_ATTEMPTS = 3`, a run of three
consecutive qualifying failures triggers exactly two automatic corrective
retries, carrying attempt numbers 2 and 3, and the third failure is
reported as terminal with no further automatic retry. -/
theorem c6_three_failures_two_retries_then_terminal :
    selfCorrectionLoop MAX_CORRECTION_ATTEMPTS 1 [false, false, false] =
      [CorrectionEvent.retried 2, CorrectionEvent.retried 3,
        CorrectionEvent.terminal] ∧
    ((selfCorrectionLoop MAX_CORRECTION_ATTEMPTS 1
        [false, false, false]).filter isRetry).length = 2 ∧
    (selfCorrectionLoop MAX_CORRECTION_ATTEMPTS 1 [false, false, false]).getLast? =
      some CorrectionEvent.terminal := by
  decide

end MotionSaaS
